import Mathlib

/-!
Shallow embedding of the Nexus agent-run engine, translated from the
repository sources:

  * `backend/api/utils.py`   — `RunManager` (the in-process run registry)
  * `backend/agent/loop.py`  — `AgentLoop._execute_agent_loop`,
    `AgentLoop._execute_tool_call`, `AgentLoop._create_event_stream`
  * `backend/api/routes.py`  — `execute_agent_run` and the SSE
    `event_stream` polling loop
  * `backend/agent/memory.py` — `Memory.add_message`

Conventions of the embedding:

  * Python exceptions are modelled with `Except String`; a raised
    exception is `Except.error msg`.
  * `json.loads` (the standard library, an external collaborator) is a
    parameter `parseArgs : String → Option ArgsMap`; `none` models a
    raised `json.JSONDecodeError`.
  * The reasoning backend (`_call_openai_api` or the simulator) is a
    parameter `backend : List ChatMsg → Except String ModelResponse`,
    matching its call contract: history in, `{content, tool_calls}` out,
    or a raised transport/HTTP exception.
  * Tool bodies are parameters `run : ArgsMap → Except String ToolResult`
    (the spec excludes tool bodies; only the call contract matters).
  * Wall-clock timestamps (`datetime.utcnow`, `time.time`) are elided:
    no claim under verification depends on their values.  The 15-second
    heartbeat test of the SSE loop is abstracted into a boolean
    `heartbeatDue`.
  * Python dicts keyed by run id are association lists with the usual
    first-match lookup; dict membership tests and in-place mutation are
    embedded as a lookup-guard plus first-occurrence update.
-/

/-- Single quote character, used to build the error strings of
`loop.py` verbatim. -/
def sqC : String := String.singleton (Char.ofNat 39)

/-- A tool call request as produced by the backend:
`{"id": ..., "type": "function", "function": {"name": ..., "arguments": <raw JSON string>}}`
flattened to its three informative fields (the constant `"type":"function"`
is dropped). -/
structure ToolCallData where
  id : String
  name : String
  arguments : String
deriving DecidableEq

/-- A parsed JSON argument object (the result of `json.loads` on the
`arguments` string), modelled as a flat string map. -/
def ArgsMap : Type := List (String × String)

/-- `ToolResult.data : Union[Dict[str, Any], str]` from
`backend/agent/tools/__init__.py`, modelled as a flat string map or
plain text. -/
inductive ToolData where
  | obj : List (String × String) → ToolData
  | text : String → ToolData
deriving DecidableEq

/-- `ToolResult` pydantic model from `backend/agent/tools/__init__.py`:
`name : str`, `ok : bool`, `data : Union[Dict, str]`. -/
structure ToolResult where
  name : String
  ok : Bool
  data : ToolData
deriving DecidableEq

/-- A registered tool: its `name` attribute and its `__call__` body
(external collaborator; may raise, modelled by `Except.error`). -/
structure ToolImpl where
  name : String
  run : ArgsMap → Except String ToolResult

/-- One entry of the OpenAI-format message history built by the loop. -/
structure ChatMsg where
  role : String
  content : String
  tool_calls : List ToolCallData
  tool_call_id : Option String
deriving DecidableEq

/-- A plain message with no tool fields. -/
def mkMsg (role content : String) : ChatMsg := ⟨role, content, [], none⟩

/-- The backend response dict `{"content": ..., "tool_calls": [...]}`
returned by `_call_openai_api` / `_simulate_openai_response`. -/
structure ModelResponse where
  content : String
  tool_calls : List ToolCallData

/-- The environment of one `AgentLoop` instance: the `json.loads`
collaborator, the registered tools (`get_default_tools()`), and the
reasoning backend. -/
structure LoopEnv where
  parseArgs : String → Option ArgsMap
  tools : List ToolImpl
  backend : List ChatMsg → Except String ModelResponse

/-! ## Run registry: `RunManager` from `backend/api/utils.py` -/

/-- Payloads passed to `RunManager.add_event` by `execute_agent_run`
(`backend/api/routes.py`): a token string, a tool call dict, a tool
result dict, the final done dict `{"message", "status"}`, or the error
dict `{"error": message}`. -/
inductive EventData where
  | text : String → EventData
  | call : ToolCallData → EventData
  | result : ToolResult → EventData
  | doneInfo : String → String → EventData
  | errorInfo : String → EventData
deriving DecidableEq

/-- One logged event `{"event": <type>, "data": <data>, "timestamp": ...}`
(timestamp elided). -/
structure RMEvent where
  event : String
  data : EventData
deriving DecidableEq

/-- The per-run record built by `RunManager.create_run_data`
(`created_at` and `updated_at` timestamps elided). -/
structure RunData where
  status : String
  events : List RMEvent
  thread_id : String
  user_message : String
deriving DecidableEq

/-- `RunManager.active_runs : Dict[str, RunData]` as an association
list. -/
def RMState : Type := List (String × RunData)

instance : DecidableEq RMState := by
  unfold RMState
  infer_instance

/-- Dict lookup `active_runs.get(run_id)`, i.e. `RunManager.get_run_data`. -/
def rmLookup : RMState → String → Option RunData
  | [], _ => none
  | p :: rest, runId => if p.1 = runId then some p.2 else rmLookup rest runId

/-- Dict assignment `active_runs[run_id] = rd`: replace the entry in
place when the key exists, otherwise append a fresh entry. -/
def rmSet : RMState → String → RunData → RMState
  | [], runId, rd => [(runId, rd)]
  | p :: rest, runId, rd =>
    if p.1 = runId then (runId, rd) :: rest else p :: rmSet rest runId rd

/-- In-place mutation of the record stored under `run_id`, guarded by
the `if run_id in self.active_runs` membership test (absent key: no-op). -/
def rmUpdate : RMState → String → (RunData → RunData) → RMState
  | [], _, _ => []
  | p :: rest, runId, f =>
    if p.1 = runId then (p.1, f p.2) :: rest else p :: rmUpdate rest runId f

/-- `RunManager.create_run_data`: installs a fresh record with
`status="running"` and an empty event list. -/
def createRunData (st : RMState) (runId threadId userMessage : String) : RMState :=
  rmSet st runId ⟨"running", [], threadId, userMessage⟩

/-- `RunManager.add_event`: appends `{"event": type, "data": data}` to the
run's event list when the run id is registered; otherwise does nothing. -/
def addEvent (st : RMState) (runId eventType : String) (data : EventData) : RMState :=
  rmUpdate st runId (fun rd => ⟨rd.status, rd.events ++ [⟨eventType, data⟩], rd.thread_id, rd.user_message⟩)

/-- `RunManager.update_status`: overwrites the stored status when the
run id is registered (`updated_at` elided); otherwise does nothing. -/
def updateStatus (st : RMState) (runId status : String) : RMState :=
  rmUpdate st runId (fun rd => ⟨status, rd.events, rd.thread_id, rd.user_message⟩)

/-- `RunManager.get_events_since`: `events[last_index:]` on the stored
list (the claims fix `last_index ≥ 0`, where the Python slice is exactly
`List.drop`), or `[]` when the run id is unknown. -/
def getEventsSince (st : RMState) (runId : String) (lastIndex : Nat) : List RMEvent :=
  match rmLookup st runId with
  | some rd => rd.events.drop lastIndex
  | none => []

/-- `RunManager.cleanup_run`: removes the entry when present. -/
def cleanupRun : RMState → String → RMState
  | [], _ => []
  | p :: rest, runId => if p.1 = runId then rest else p :: cleanupRun rest runId

/-- The status stored for a run id, if registered. -/
def rmStatus (st : RMState) (runId : String) : Option String :=
  (rmLookup st runId).map (fun rd => rd.status)

/-- The event log stored for a run id (empty when unregistered). -/
def rmEvents (st : RMState) (runId : String) : List RMEvent :=
  match rmLookup st runId with
  | some rd => rd.events
  | none => []

/-! ## Agent loop: `backend/agent/loop.py` -/

/-- `SYSTEM_PROMPT` from `loop.py`. -/
def systemPrompt : String := "You are a helpful agent. Use tools when needed. Stop when done."

def systemMsg : ChatMsg := mkMsg "system" systemPrompt

/-- `self.max_iterations = 2  # MVP limit`. -/
def maxIterations : Nat := 2

/-- The fallback completion text returned when the iteration budget is
exhausted: the literal string of `loop.py`, including its apostrophe. -/
def fallbackMessage : String := "I" ++ sqC ++ "ve completed the available iterations."

/-- Stand-in message for a raised `json.JSONDecodeError` from
`json.loads` on a malformed arguments string. -/
def jsonDecodeError : String := "JSONDecodeError: Expecting value"

/-- The error payload `{"error": "Tool '<name>' not found"}` built by
`_execute_tool_call` for an unregistered tool name. -/
def toolNotFoundMsg (name : String) : String :=
  "Tool " ++ sqC ++ name ++ sqC ++ " not found"

/-- Stand-in for `json.dumps(tool_result.data)` when the tool result is
appended to the history as a tool-role message (the exact rendering is
immaterial to every claim). -/
def dumpsToolData : ToolData → String
  | ToolData.text s => s
  | ToolData.obj fields => String.intercalate "," (fields.map (fun p => p.1 ++ ":" ++ p.2))

/-- `AgentLoop._execute_tool_call`.  Source order is kept:
`json.loads(tool_call["function"]["arguments"])` runs first and outside
any `try` block, so a malformed arguments string raises out of the
function; then the tool is looked up by name (first match); an unknown
tool returns a failed `ToolResult`; only the tool invocation itself is
wrapped in `try/except`, converting a raised exception `e` into a failed
`ToolResult` with `{"error": str(e), "raw_exception": str(e)}`. -/
def executeToolCall (env : LoopEnv) (tc : ToolCallData) : Except String ToolResult :=
  match env.parseArgs tc.arguments with
  | none => Except.error jsonDecodeError
  | some args =>
    match env.tools.find? (fun t => t.name == tc.name) with
    | none =>
      Except.ok ⟨tc.name, false, ToolData.obj [("error", toolNotFoundMsg tc.name)]⟩
    | some tool =>
      match tool.run args with
      | Except.ok result => Except.ok result
      | Except.error e =>
        Except.ok ⟨tc.name, false, ToolData.obj [("error", e), ("raw_exception", e)]⟩

/-- The events accumulated by `_execute_agent_loop` (dicts with a
`"type"` key), plus the `{"type": "done"}` marker appended by
`_create_event_stream`. -/
inductive LoopEvent where
  | message : String → LoopEvent
  | toolCall : ToolCallData → LoopEvent
  | toolResult : ToolResult → LoopEvent
  | done : LoopEvent
deriving DecidableEq

/-- The `for tool_call in tool_calls:` body of `_execute_agent_loop`:
append a `tool_call` event, run `_execute_tool_call` (a raised exception
propagates, abandoning the local lists), append the `tool_result` event,
and append the tool-role message with the result data to the history. -/
def toolCallLoop (env : LoopEnv) :
    List ToolCallData → List ChatMsg → List LoopEvent →
    Except String (List ChatMsg × List LoopEvent)
  | [], msgs, events => Except.ok (msgs, events)
  | tc :: rest, msgs, events =>
    match executeToolCall env tc with
    | Except.error e => Except.error e
    | Except.ok r =>
      toolCallLoop env rest
        (msgs ++ [⟨"tool", dumpsToolData r.data, [], some tc.id⟩])
        (events ++ [LoopEvent.toolCall tc, LoopEvent.toolResult r])

/-- The `while iteration < self.max_iterations:` loop of
`_execute_agent_loop`, with the remaining iteration budget as fuel.  The
second component of the result counts the reasoning-backend invocations
made (an instrumentation ghost; it mirrors how many times the `while`
body reached its backend call).  Exhausted budget returns the fixed
fallback message; a round with no tool calls returns that round's
content; otherwise the assistant message and the tool round-trips are
appended and the loop continues. -/
def agentLoopIter (env : LoopEnv) :
    Nat → List ChatMsg → List LoopEvent → Nat →
    Except String (String × List LoopEvent) × Nat
  | 0, _msgs, events, calls =>
    (Except.ok (fallbackMessage, events ++ [LoopEvent.message fallbackMessage]), calls)
  | Nat.succ fuel, msgs, events, calls =>
    match env.backend msgs with
    | Except.error e => (Except.error e, calls + 1)
    | Except.ok resp =>
      if resp.tool_calls.isEmpty then
        (Except.ok (resp.content, events ++ [LoopEvent.message resp.content]), calls + 1)
      else
        match toolCallLoop env resp.tool_calls
            (msgs ++ [⟨"assistant", resp.content, resp.tool_calls, none⟩]) events with
        | Except.error e => (Except.error e, calls + 1)
        | Except.ok (msgs', events') => agentLoopIter env fuel msgs' events' (calls + 1)

/-- `AgentLoop._execute_agent_loop` on an initial history. -/
def executeAgentLoop (env : LoopEnv) (messages : List ChatMsg) :
    Except String (String × List LoopEvent) × Nat :=
  agentLoopIter env maxIterations messages [] 0

/-- The history `run_agent` hands to `_execute_agent_loop`: the system
prompt, the loaded prior conversation, and the new user message. -/
def initialMessages (history : List ChatMsg) (userMessage : String) : List ChatMsg :=
  systemMsg :: history ++ [mkMsg "user" userMessage]

/-- `AgentLoop.run_agent` (the database save of the assistant message is
elided; it touches no claim). -/
def runAgent (env : LoopEnv) (history : List ChatMsg) (userMessage : String) :
    Except String (String × List LoopEvent) × Nat :=
  executeAgentLoop env (initialMessages history userMessage)

/-! ## Run execution endpoint: `execute_agent_run` from `backend/api/routes.py` -/

/-- `sanitize_content` from `backend/api/utils.py` at its default
`max_length=10000`: empty input to empty output, otherwise strip
leading/trailing whitespace and truncate over-long text with a `"..."`
suffix. -/
def sanitizeContent (content : String) : String :=
  if content = "" then ""
  else
    let s := content.trim
    if s.length > 10000 then (s.take 10000) ++ "..."
    else s

/-- The `runs` table row of the durable store, reduced to the two fields
`execute_agent_run` writes (`status`, `result`). -/
structure DbRun where
  status : String
  result : Option String
deriving DecidableEq

/-- The observable outcome of `execute_agent_run`: the registry, the
durable run row, and the ghost count of reasoning-backend calls made. -/
structure AgentRunOutcome where
  rm : RMState
  db : DbRun
  backendCalls : Nat

/-- `str(e)` for the `AttributeError` raised by
`agent_loop.run(user_message)` in `execute_agent_run`: the `AgentLoop`
class of `backend/agent/loop.py` defines `run_agent`,
`_execute_agent_loop`, `_execute_tool_call` and others, but no `run`
method, so this attribute access raises on every call. -/
def attrErrorMsg : String :=
  sqC ++ "AgentLoop" ++ sqC ++ " object has no attribute " ++ sqC ++ "run" ++ sqC

/-- The message `f"Error executing run: {str(e)}"` built by the
`except` handler of `execute_agent_run` for that `AttributeError`. -/
def runErrorMsg : String := "Error executing run: " ++ attrErrorMsg

/-- `execute_agent_run` from `backend/api/routes.py`, as staged: it
marks the durable row running, registers the run (fresh record, empty
log, sanitized seed message), constructs an `AgentLoop`, and then
evaluates `agent_loop.run(user_message)` — which raises
`AttributeError`, since `AgentLoop` has no `run` method.  Control
therefore always reaches the trailing `except Exception` handler: one
`error` event with `f"Error executing run: {str(e)}"` is appended, the
registry status is set to `failed`, and status `failed` is persisted
with the message.  The response-mirroring loop, the `done` event and the
`completed` status below the raising line are unreachable, and the
reasoning backend is never invoked on this path (ghost call count 0). -/
def executeAgentRun (runId threadId userMessage : String)
    (rm0 : RMState) (db0 : DbRun) : AgentRunOutcome :=
  let _db1 : DbRun := ⟨"running", db0.result⟩
  let rm1 := createRunData rm0 runId threadId (sanitizeContent userMessage)
  let rm2 := addEvent rm1 runId "error" (EventData.errorInfo runErrorMsg)
  let rm3 := updateStatus rm2 runId "failed"
  ⟨rm3, ⟨"failed", some runErrorMsg⟩, 0⟩

/-! ## Run driver: `start_run` from `backend/agent/loop.py`

Unlike the route handler above, `start_run` calls the agent loop through
its real method `run_agent`, so it is the one path on which the
reasoning backend and the tools are actually reached. -/

/-- A value yielded by `start_run`: a serialized loop event from
`_create_event_stream` (which emits every accumulated event and then the
`{"type": "done"}` marker), the final
`{"type": "run_completed", "final_response": ...}` dict, or the
`{"type": "error", "message": str(e)}` dict from the `except` handler. -/
inductive RunYield where
  | ev : LoopEvent → RunYield
  | runCompleted : String → RunYield
  | errorYield : String → RunYield
deriving DecidableEq

/-- The observable outcome of `start_run`: the final status written to
the run row by `_update_run_status`, its `error_message` column, the
yielded stream, and the ghost backend-call count. -/
structure StartRunOutcome where
  status : String
  error_message : Option String
  yields : List RunYield
  backendCalls : Nat
deriving DecidableEq

/-- `start_run` from `backend/agent/loop.py`, for a run whose row and
last user message exist in the database (a missing row raises a lookup
message onto the same `except` path; that sub-case is not needed by any
claim and is not modelled).  It sets the row running, runs
`AgentLoop.run_agent` on the loaded history plus the user content, and
either streams the loop events (with the `done` marker of
`_create_event_stream` and the final `run_completed` dict) and writes
status `completed` (`tokens_used=100` elided), or catches the raised
exception `e`, writes status `error` with `error_message = str(e)`, and
yields one error dict. -/
def startRun (env : LoopEnv) (history : List ChatMsg) (userContent : String) :
    StartRunOutcome :=
  match runAgent env history userContent with
  | (Except.ok (final, events), calls) =>
    ⟨"completed", none,
      (events ++ [LoopEvent.done]).map RunYield.ev ++ [RunYield.runCompleted final], calls⟩
  | (Except.error e, calls) =>
    ⟨"error", some e, [RunYield.errorYield e], calls⟩

/-! ## SSE polling loop: `event_stream` from `backend/api/routes.py` -/

/-- A pushed SSE frame: an ordinary event frame (`event: <type>` with
`{"type", "data"}` body), the terminal `event: done` frame
(`{"type": "run_completed", "status"}`, plus a `"message"` field on the
durable-store fallback path), or a heartbeat frame (timestamp elided). -/
inductive Frame where
  | ev : String → EventData → Frame
  | doneFrame : String → Option String → Frame
  | heartbeat : Frame
deriving DecidableEq

/-- `status in ["completed", "failed"]`. -/
def isTerminal (status : String) : Bool :=
  status = "completed" || status = "failed"

/-- The state one iteration of the `while True:` polling loop reads:
client liveness, the shared registry, the streamed run id, the cursor
`last_event_index`, the durable row refreshed by `db.refresh(run)`, and
whether 15 seconds have elapsed since the last heartbeat. -/
structure PollState where
  disconnected : Bool
  rm : RMState
  runId : String
  lastEventIndex : Nat
  dbStatus : String
  dbResult : Option String
  heartbeatDue : Bool

/-- What one iteration produced: the frames pushed, the advanced cursor,
and whether the loop broke (closing the stream). -/
structure PollStepResult where
  frames : List Frame
  lastEventIndex : Nat
  closed : Bool
deriving DecidableEq

/-- `run.result or "Run completed"` — Python `or` treats both `None` and
the empty string as falsy. -/
def dbDoneMessage (result : Option String) : String :=
  match result with
  | some s => if s = "" then "Run completed" else s
  | none => "Run completed"

/-- One iteration of the `event_stream` polling loop, in source order:
a detected disconnect breaks with no frame; a registered run has its new
events pushed and the cursor advanced, then a terminal registry status
pushes the terminal frame and breaks; an unregistered run falls back to
the refreshed durable row — a terminal durable status pushes the
terminal frame (with message) and breaks, while any other durable status
pushes nothing; finally, a surviving iteration pushes a heartbeat frame
when one is due and loops. -/
def pollStep (ps : PollState) : PollStepResult :=
  if ps.disconnected then ⟨[], ps.lastEventIndex, true⟩
  else
    match rmLookup ps.rm ps.runId with
    | some rd =>
      let newEvents := getEventsSince ps.rm ps.runId ps.lastEventIndex
      let frames := newEvents.map (fun e => Frame.ev e.event e.data)
      let idx := ps.lastEventIndex + newEvents.length
      if isTerminal rd.status then
        ⟨frames ++ [Frame.doneFrame rd.status none], idx, true⟩
      else if ps.heartbeatDue then ⟨frames ++ [Frame.heartbeat], idx, false⟩
      else ⟨frames, idx, false⟩
    | none =>
      if isTerminal ps.dbStatus then
        ⟨[Frame.doneFrame ps.dbStatus (some (dbDoneMessage ps.dbResult))],
          ps.lastEventIndex, true⟩
      else if ps.heartbeatDue then ⟨[Frame.heartbeat], ps.lastEventIndex, false⟩
      else ⟨[], ps.lastEventIndex, false⟩

/-! ## Conversation memory: `Memory` from `backend/agent/memory.py` -/

/-- One stored memory message (timestamp and metadata elided). -/
structure MemMessage where
  role : String
  content : String
deriving DecidableEq

/-- The `Memory` instance state: the stored messages and the
`max_messages` bound. -/
structure MemoryState where
  messages : List MemMessage
  max_messages : Nat
deriving DecidableEq

/-- `Memory(max_messages=n)`: empty message list. -/
def mkMemory (maxMessages : Nat) : MemoryState := ⟨[], maxMessages⟩

/-- Python `l[-k:]`: the last `k` elements — except that `l[-0:]` is
`l[0:]`, the whole list. -/
def pySliceLast (k : Nat) (l : List MemMessage) : List MemMessage :=
  if k = 0 then l else l.drop (l.length - k)

/-- `Memory.add_message`: append, then trim to the last `max_messages`
entries via `self.messages[-self.max_messages:]` when the bound is
exceeded. -/
def addMessage (m : MemoryState) (role content : String) : MemoryState :=
  let msgs := m.messages ++ [(⟨role, content⟩ : MemMessage)]
  if msgs.length > m.max_messages
  then ⟨pySliceLast m.max_messages msgs, m.max_messages⟩
  else ⟨msgs, m.max_messages⟩

/-- A whole sequence of `add_message` calls. -/
def addMessages (m : MemoryState) (items : List (String × String)) : MemoryState :=
  items.foldl (fun st p => addMessage st p.1 p.2) m

/-! ## Derived notions used by the verification layer -/

instance {α : Type} [DecidableEq α] : DecidableEq (Except String α) := fun a b =>
  match a, b with
  | Except.ok x, Except.ok y =>
    if h : x = y then isTrue (by rw [h])
    else isFalse (fun hc => by cases hc; exact h rfl)
  | Except.error x, Except.error y =>
    if h : x = y then isTrue (by rw [h])
    else isFalse (fun hc => by cases hc; exact h rfl)
  | Except.ok _, Except.error _ => isFalse (fun hc => by cases hc)
  | Except.error _, Except.ok _ => isFalse (fun hc => by cases hc)

/-- Recognizer for `tool_call` loop events. -/
def isToolCallEv : LoopEvent → Bool
  | LoopEvent.toolCall _ => true
  | _ => false

/-- Recognizer for `tool_result` loop events. -/
def isToolResultEv : LoopEvent → Bool
  | LoopEvent.toolResult _ => true
  | _ => false

/-- Recognizer for either kind of tool round-trip event. -/
def isToolEv (e : LoopEvent) : Bool := isToolCallEv e || isToolResultEv e

/-- The subsequence of tool round-trip events of a loop event list. -/
def toolEvents (events : List LoopEvent) : List LoopEvent := events.filter isToolEv

/-- The tool call requests appearing in a loop event list, in order. -/
def toolCallsOf (events : List LoopEvent) : List ToolCallData :=
  events.filterMap (fun e =>
    match e with
    | LoopEvent.toolCall tc => some tc
    | _ => none)

/-- Matching round-trip order for the tool events of a run: the list is
a sequence of adjacent pairs, each `tool_call` immediately followed by
the `tool_result` that `_execute_tool_call` produces for that very
request. -/
inductive Paired (env : LoopEnv) : List LoopEvent → Prop where
  | nil : Paired env []
  | pair (tc : ToolCallData) (r : ToolResult) (rest : List LoopEvent) :
      executeToolCall env tc = Except.ok r → Paired env rest →
      Paired env (LoopEvent.toolCall tc :: LoopEvent.toolResult r :: rest)

/-- The event-kind vocabulary the spec data model allows. -/
def specEventKinds : List String :=
  ["token", "tool_call", "tool_result", "heartbeat", "error", "done"]

/-- The event kinds `execute_agent_run` actually hands to
`RunManager.add_event`. -/
def actualEventKinds : List String := ["token", "tool", "done", "error"]

/-! ## Concrete fixtures for witnesses and counterexamples -/

/-- A `json.loads` stub for the concrete runs below: accepts the
empty-object string (yielding the empty argument map) and rejects
anything else — in particular the malformed string `"not json"`,
which the real `json.loads` also rejects. -/
def parseStub (s : String) : Option ArgsMap := if s = "{}" then some [] else none

/-- A well-formed tool call request. -/
def webSearchCall : ToolCallData := ⟨"call_1", "web_search", "{}"⟩

/-- A tool call request whose arguments string is not valid JSON. -/
def badCall : ToolCallData := ⟨"call_1", "web_search", "not json"⟩

/-- A registered `web_search` tool whose body succeeds. -/
def echoTool : ToolImpl :=
  ⟨"web_search", fun _ => Except.ok ⟨"web_search", true, ToolData.text "results"⟩⟩

/-- Backend stub that always requests one well-formed tool call. -/
def envTools : LoopEnv :=
  ⟨parseStub, [echoTool], fun _ => Except.ok ⟨"thinking", [webSearchCall]⟩⟩

/-- Backend stub that always requests one malformed-arguments tool call. -/
def envNoJson : LoopEnv :=
  ⟨parseStub, [echoTool], fun _ => Except.ok ⟨"thinking", [badCall]⟩⟩

/-- Backend stub that answers with plain content at once. -/
def envPlain : LoopEnv :=
  ⟨parseStub, [echoTool], fun _ => Except.ok ⟨"hello there", []⟩⟩

/-- A reasoning backend whose call raises a transport error. -/
def envFailBackend : LoopEnv :=
  ⟨parseStub, [echoTool], fun _ => Except.error "httpx.ConnectError: connection refused"⟩

/-- A freshly created durable run row. -/
def dbQueued : DbRun := ⟨"queued", none⟩

/-- Registry fixture: a run whose status has been driven to the
terminal value `completed`. -/
def st4done : RMState := updateStatus (createRunData [] "run1" "thread1" "hi") "run1" "completed"

/-- A loop environment with exactly one registered tool, `web_search`. -/
def envOneTool : LoopEnv := ⟨parseStub, [echoTool], fun _ => Except.ok ⟨"", []⟩⟩

/-- Registry fixture: one registered run with a one-event log. -/
def rdW : RunData := ⟨"running", [⟨"token", EventData.text "hello"⟩], "thread1", "hi"⟩

/-- Registry fixture state holding only `rdW` under id `run1`. -/
def stW : RMState := [("run1", rdW)]

/-! ## Registry lemmas -/

theorem rmUpdate_of_lookup_none {st : RMState} {runId : String} (f : RunData → RunData)
    (h : rmLookup st runId = none) : rmUpdate st runId f = st := by
  induction st with
  | nil => rfl
  | cons p rest ih =>
    by_cases hp : p.1 = runId
    · simp [rmLookup, hp] at h
    · simp [rmLookup, hp] at h
      simp [rmUpdate, hp, ih h]

theorem rmLookup_rmUpdate_self (st : RMState) (runId : String) (f : RunData → RunData) :
    rmLookup (rmUpdate st runId f) runId = (rmLookup st runId).map f := by
  induction st with
  | nil => rfl
  | cons p rest ih =>
    by_cases hp : p.1 = runId
    · simp [rmUpdate, rmLookup, hp]
    · simp [rmUpdate, rmLookup, hp, ih]

theorem rmLookup_rmSet_self (st : RMState) (runId : String) (rd : RunData) :
    rmLookup (rmSet st runId rd) runId = some rd := by
  induction st with
  | nil => simp [rmSet, rmLookup]
  | cons p rest ih =>
    by_cases hp : p.1 = runId
    · simp [rmSet, rmLookup, hp]
    · simp [rmSet, rmLookup, hp, ih]

theorem rmStatus_addEvent (st : RMState) (runId runId' eventType : String) (d : EventData) :
    rmStatus (addEvent st runId' eventType d) runId = rmStatus st runId := by
  unfold rmStatus addEvent
  induction st with
  | nil => rfl
  | cons p rest ih =>
    by_cases hp : p.1 = runId'
    · by_cases hq : runId' = runId
      · subst hq; simp [rmUpdate, rmLookup, hp]
      · simp [rmUpdate, rmLookup, hp]
        rw [if_neg (by simpa [hp] using hq), if_neg (by simpa [hp] using hq)]
    · simp only [rmUpdate, if_neg hp]
      by_cases hq : p.1 = runId
      · simp [rmLookup, hq]
      · simp [rmLookup, hq, ih]

theorem rmEvents_updateStatus (st : RMState) (runId runId' status : String) :
    rmEvents (updateStatus st runId' status) runId = rmEvents st runId := by
  unfold rmEvents updateStatus
  induction st with
  | nil => rfl
  | cons p rest ih =>
    by_cases hp : p.1 = runId'
    · by_cases hq : runId' = runId
      · subst hq; simp [rmUpdate, rmLookup, hp]
      · simp [rmUpdate, rmLookup, hp]
        rw [if_neg (by simpa [hp] using hq), if_neg (by simpa [hp] using hq)]
    · simp only [rmUpdate, if_neg hp]
      by_cases hq : p.1 = runId
      · simp [rmLookup, hq]
      · simp [rmLookup, hq, ih]

theorem rmStatus_updateStatus_self (st : RMState) (runId status : String)
    (h : (rmLookup st runId).isSome) :
    rmStatus (updateStatus st runId status) runId = some status := by
  unfold rmStatus updateStatus
  rw [rmLookup_rmUpdate_self]
  cases hl : rmLookup st runId with
  | none => rw [hl] at h; simp at h
  | some rd => simp

theorem rmEvents_addEvent_self (st : RMState) (runId eventType : String) (d : EventData)
    (h : (rmLookup st runId).isSome) :
    rmEvents (addEvent st runId eventType d) runId
      = rmEvents st runId ++ [⟨eventType, d⟩] := by
  unfold rmEvents addEvent
  rw [rmLookup_rmUpdate_self]
  cases hl : rmLookup st runId with
  | none => rw [hl] at h; simp at h
  | some rd => simp


theorem rmEvents_createRunData_self (st : RMState) (runId threadId userMessage : String) :
    rmEvents (createRunData st runId threadId userMessage) runId = [] := by
  unfold rmEvents createRunData
  rw [rmLookup_rmSet_self]

theorem rmStatus_createRunData_self (st : RMState) (runId threadId userMessage : String) :
    rmStatus (createRunData st runId threadId userMessage) runId = some "running" := by
  unfold rmStatus createRunData
  rw [rmLookup_rmSet_self]
  rfl

theorem executeToolCall_ok_of_parse (env : LoopEnv) (tc : ToolCallData)
    (h : (env.parseArgs tc.arguments).isSome) :
    ∃ r, executeToolCall env tc = Except.ok r := by
  unfold executeToolCall
  cases hp : env.parseArgs tc.arguments with
  | none => rw [hp] at h; simp at h
  | some args =>
    cases hf : env.tools.find? (fun t => t.name == tc.name) with
    | none =>
      exact ⟨⟨tc.name, false, ToolData.obj [("error", toolNotFoundMsg tc.name)]⟩,
        by simp [executeToolCall, hp, hf]⟩
    | some tool =>
      cases hr : tool.run args with
      | ok r => exact ⟨r, by simp [executeToolCall, hp, hf, hr]⟩
      | error e =>
        exact ⟨⟨tc.name, false, ToolData.obj [("error", e), ("raw_exception", e)]⟩,
          by simp [executeToolCall, hp, hf, hr]⟩

theorem toolCallLoop_ok (env : LoopEnv) :
    ∀ (tcs : List ToolCallData) (msgs : List ChatMsg) (events : List LoopEvent),
      (∀ tc ∈ tcs, (env.parseArgs tc.arguments).isSome) →
      ∃ out, toolCallLoop env tcs msgs events = Except.ok out := by
  intro tcs
  induction tcs with
  | nil => intro msgs events _h; exact ⟨(msgs, events), rfl⟩
  | cons tc rest ih =>
    intro msgs events h
    obtain ⟨r, hr⟩ := executeToolCall_ok_of_parse env tc (h tc (by simp))
    unfold toolCallLoop
    rw [hr]
    exact ih _ _ (fun tc' htc' => h tc' (by simp [htc']))

theorem agentLoopIter_fallback (env : LoopEnv)
    (hB : ∀ msgs, ∃ resp, env.backend msgs = Except.ok resp ∧ resp.tool_calls ≠ [] ∧
      ∀ tc ∈ resp.tool_calls, (env.parseArgs tc.arguments).isSome) :
    ∀ (fuel : Nat) (msgs : List ChatMsg) (events : List LoopEvent) (calls : Nat),
      ∃ events₂, agentLoopIter env fuel msgs events calls
        = (Except.ok (fallbackMessage, events₂), calls + fuel) := by
  intro fuel
  induction fuel with
  | zero => intro msgs events calls; exact ⟨_, rfl⟩
  | succ fuel ih =>
    intro msgs events calls
    obtain ⟨resp, hb, hne, hp⟩ := hB msgs
    have hie : resp.tool_calls.isEmpty = false := by
      cases hcs : resp.tool_calls with
      | nil => exact absurd hcs hne
      | cons a as => rfl
    obtain ⟨out, hout⟩ := toolCallLoop_ok env resp.tool_calls
      (msgs ++ [⟨"assistant", resp.content, resp.tool_calls, none⟩]) events hp
    obtain ⟨msgs₂, events₂⟩ := out
    obtain ⟨events₃, h₃⟩ := ih msgs₂ events₂ (calls + 1)
    refine ⟨events₃, ?_⟩
    unfold agentLoopIter
    rw [hb]
    simp only [hie, Bool.false_eq_true, if_false]
    simp only [hout]
    rw [h₃]
    congr 1
    omega

theorem paired_append (env : LoopEnv) {a b : List LoopEvent}
    (ha : Paired env a) (hb : Paired env b) : Paired env (a ++ b) := by
  induction ha with
  | nil => simpa using hb
  | pair tc r rest hr _hp ih =>
    simpa using Paired.pair tc r (rest ++ b) hr ih

theorem paired_countP_eq (env : LoopEnv) {l : List LoopEvent} (h : Paired env l) :
    l.countP isToolCallEv = l.countP isToolResultEv := by
  induction h with
  | nil => rfl
  | pair tc r rest _hr _hp ih =>
    simp [List.countP_cons, isToolCallEv, isToolResultEv]
    omega

theorem toolCallLoop_tail (env : LoopEnv) :
    ∀ (tcs : List ToolCallData) (msgs : List ChatMsg) (events : List LoopEvent)
      (msgs₂ : List ChatMsg) (events₂ : List LoopEvent),
      toolCallLoop env tcs msgs events = Except.ok (msgs₂, events₂) →
      ∃ tail, events₂ = events ++ tail ∧ Paired env tail ∧
        (∀ e ∈ tail, isToolEv e = true) ∧ toolCallsOf tail = tcs := by
  intro tcs
  induction tcs with
  | nil =>
    intro msgs events msgs₂ events₂ h
    unfold toolCallLoop at h
    simp only [Except.ok.injEq, Prod.mk.injEq] at h
    refine ⟨[], ?_, Paired.nil, by simp, rfl⟩
    rw [← h.2]
    simp
  | cons tc rest ih =>
    intro msgs events msgs₂ events₂ h
    unfold toolCallLoop at h
    cases hr : executeToolCall env tc with
    | error e => rw [hr] at h; simp at h
    | ok r =>
      rw [hr] at h
      simp only [] at h
      obtain ⟨tail, htail, hp, hall, hcalls⟩ := ih _ _ _ _ h
      refine ⟨LoopEvent.toolCall tc :: LoopEvent.toolResult r :: tail,
        ?_, Paired.pair tc r tail hr hp, ?_, ?_⟩
      · rw [htail]; simp
      · intro e he
        rcases he with _ | ⟨_, he⟩
        · rfl
        · rcases he with _ | ⟨_, he⟩
          · rfl
          · exact hall e he
      · simp only [toolCallsOf, List.filterMap_cons] at hcalls ⊢
        rw [hcalls]

theorem agentLoopIter_tail (env : LoopEnv) :
    ∀ (fuel : Nat) (msgs : List ChatMsg) (events : List LoopEvent) (calls : Nat)
      (c : String) (events₂ : List LoopEvent) (n : Nat),
      agentLoopIter env fuel msgs events calls = (Except.ok (c, events₂), n) →
      ∃ tail, events₂ = events ++ tail ∧ Paired env (toolEvents tail) := by
  intro fuel
  induction fuel with
  | zero =>
    intro msgs events calls c events₂ n h
    unfold agentLoopIter at h
    simp only [Prod.mk.injEq, Except.ok.injEq] at h
    refine ⟨[LoopEvent.message fallbackMessage], ?_, ?_⟩
    · rw [← h.1.2]
    · simp [toolEvents, isToolEv, isToolCallEv, isToolResultEv]
      exact Paired.nil
  | succ fuel ih =>
    intro msgs events calls c events₂ n h
    unfold agentLoopIter at h
    cases hb : env.backend msgs with
    | error e => rw [hb] at h; simp at h
    | ok resp =>
      rw [hb] at h
      simp only [] at h
      by_cases hie : resp.tool_calls.isEmpty
      · rw [if_pos hie] at h
        simp only [Prod.mk.injEq, Except.ok.injEq] at h
        refine ⟨[LoopEvent.message resp.content], ?_, ?_⟩
        · rw [← h.1.2]
        · simp [toolEvents, isToolEv, isToolCallEv, isToolResultEv]
          exact Paired.nil
      · rw [if_neg hie] at h
        cases htl : toolCallLoop env resp.tool_calls
            (msgs ++ [⟨"assistant", resp.content, resp.tool_calls, none⟩]) events with
        | error e => rw [htl] at h; simp at h
        | ok out =>
          obtain ⟨msgs₁, events₁⟩ := out
          rw [htl] at h
          simp only [] at h
          obtain ⟨tail₂, htail₂, hp₂⟩ := ih _ _ _ _ _ _ h
          obtain ⟨tail₁, htail₁, hp₁, hall₁, _hcalls₁⟩ := toolCallLoop_tail env _ _ _ _ _ htl
          refine ⟨tail₁ ++ tail₂, ?_, ?_⟩
          · rw [htail₂, htail₁, List.append_assoc]
          · unfold toolEvents
            rw [List.filter_append]
            rw [List.filter_eq_self.mpr hall₁]
            exact paired_append env hp₁ hp₂

theorem isSome_of_rmStatus_eq {st : RMState} {runId s : String}
    (h : rmStatus st runId = some s) : (rmLookup st runId).isSome := by
  unfold rmStatus at h
  cases hl : rmLookup st runId with
  | none => rw [hl] at h; simp at h
  | some rd => rfl

theorem runAgent_backend_error (env : LoopEnv) (history : List ChatMsg)
    (userMessage e : String)
    (h : env.backend (initialMessages history userMessage) = Except.error e) :
    runAgent env history userMessage = (Except.error e, 1) := by
  simp [runAgent, executeAgentLoop, maxIterations, agentLoopIter, h]

theorem countP_toolEvents_call (l : List LoopEvent) :
    (toolEvents l).countP isToolCallEv = l.countP isToolCallEv := by
  induction l with
  | nil => rfl
  | cons e rest ih =>
    cases e <;>
      simp [toolEvents, List.filter_cons, List.countP_cons,
        isToolEv, isToolCallEv, isToolResultEv] at ih ⊢ <;>
      omega

theorem countP_toolEvents_result (l : List LoopEvent) :
    (toolEvents l).countP isToolResultEv = l.countP isToolResultEv := by
  induction l with
  | nil => rfl
  | cons e rest ih =>
    cases e <;>
      simp [toolEvents, List.filter_cons, List.countP_cons,
        isToolEv, isToolCallEv, isToolResultEv] at ih ⊢ <;>
      omega

/-- C2: every event sequence the agent loop returns carries equally many
`tool_call` and `tool_result` events, and its tool events form matching
adjacent round-trip pairs — each `tool_call` is immediately followed by
the `tool_result` that `_execute_tool_call` computes for that request,
before any later `tool_call` (tool requests run sequentially in request
order). -/
theorem c2_tool_call_result_pairing (env : LoopEnv) (history : List ChatMsg)
    (userMessage finalContent : String) (events : List LoopEvent) (n : Nat)
    (h : runAgent env history userMessage = (Except.ok (finalContent, events), n)) :
    events.countP isToolCallEv = events.countP isToolResultEv ∧
      Paired env (toolEvents events) := by
  obtain ⟨tail, htail, hp⟩ := agentLoopIter_tail env maxIterations
    (initialMessages history userMessage) [] 0 finalContent events n h
  rw [htail]
  simp only [List.nil_append] at htail ⊢
  constructor
  · rw [← countP_toolEvents_call, ← countP_toolEvents_result]
    exact paired_countP_eq env hp
  · exact hp

/-- Witness for C2 at a backend stub answering with plain content. -/
theorem c2_witness :
    ([LoopEvent.message "hello there"] : List LoopEvent).countP isToolCallEv
        = ([LoopEvent.message "hello there"] : List LoopEvent).countP isToolResultEv ∧
      Paired envPlain (toolEvents [LoopEvent.message "hello there"]) :=
  c2_tool_call_result_pairing envPlain [] "hi" "hello there"
    [LoopEvent.message "hello there"] 1 (by decide)

/-- C4 as stated is false on the code: `RunManager.update_status`
enforces no forward-only transition and `RunManager.add_event` has no
terminal-status check — after the run reaches the terminal status
`completed`, a later `update_status` overwrites it back to `running`,
and a later `add_event` still appends to the log. -/
theorem c4_original_counterexample :
    rmStatus st4done "run1" = some "completed" ∧
      rmStatus (updateStatus st4done "run1" "running") "run1" = some "running" ∧
      rmEvents (addEvent st4done "run1" "token" (EventData.text "late")) "run1"
        = [⟨"token", EventData.text "late"⟩] := by
  refine ⟨by decide, by decide, by decide⟩

/-- C4 amended: registry status updates are unconditional — for any
registered run, `update_status` overwrites the stored status with the
given value (terminal statuses included), and `add_event` appends to the
log regardless of the stored status, terminal or not. -/
theorem c4_status_overwrite (st : RMState) (runId status₂ eventType : String)
    (d : EventData) (rd : RunData) (h : rmLookup st runId = some rd) :
    rmStatus (updateStatus st runId status₂) runId = some status₂ ∧
      rmEvents (addEvent st runId eventType d) runId = rd.events ++ [⟨eventType, d⟩] := by
  constructor
  · exact rmStatus_updateStatus_self st runId status₂ (by rw [h]; rfl)
  · rw [rmEvents_addEvent_self st runId eventType d (by rw [h]; rfl)]
    unfold rmEvents
    rw [h]

/-- Witness for the amended C4 at the concrete terminal-status run. -/
theorem c4_witness :
    rmStatus (updateStatus st4done "run1" "queued") "run1" = some "queued" ∧
      rmEvents (addEvent st4done "run1" "token" (EventData.text "late")) "run1"
        = ([] : List RMEvent) ++ [⟨"token", EventData.text "late"⟩] :=
  c4_status_overwrite st4done "run1" "queued" "token" (EventData.text "late")
    ⟨"completed", [], "thread1", "hi"⟩ (by decide)

/-- C5 as stated is false in one detail: the error message for an
unknown tool is capitalized — `Tool 'nonexistent_tool' not found`, not
`tool 'nonexistent_tool' not found` as the spec quotes it.  The rest of
the claim (failed result, run continues) holds. -/
theorem c5_original_counterexample :
    executeToolCall envOneTool ⟨"call_9", "nonexistent_tool", "{}"⟩
        = Except.ok ⟨"nonexistent_tool", false,
            ToolData.obj [("error", toolNotFoundMsg "nonexistent_tool")]⟩ ∧
      toolNotFoundMsg "nonexistent_tool"
        ≠ "tool " ++ sqC ++ "nonexistent_tool" ++ sqC ++ " not found" := by
  refine ⟨by decide, by decide⟩

/-- C5 amended: a request naming an unregistered tool yields
`ToolResult` with `ok = false` and the error payload
`Tool '<name>' not found` (capital T), no exception escapes, and the
sequential tool loop proceeds past it — appending the pair of events and
the tool-role message exactly as for a succeeding call. -/
theorem c5_unknown_tool (env : LoopEnv) (tc : ToolCallData)
    (hparse : (env.parseArgs tc.arguments).isSome)
    (hno : ∀ t ∈ env.tools, t.name ≠ tc.name) :
    executeToolCall env tc
        = Except.ok ⟨tc.name, false, ToolData.obj [("error", toolNotFoundMsg tc.name)]⟩ ∧
      ∀ msgs events, toolCallLoop env [tc] msgs events
        = Except.ok
            (msgs ++ [⟨"tool",
              dumpsToolData (ToolData.obj [("error", toolNotFoundMsg tc.name)]), [],
              some tc.id⟩],
            events ++ [LoopEvent.toolCall tc,
              LoopEvent.toolResult
                ⟨tc.name, false, ToolData.obj [("error", toolNotFoundMsg tc.name)]⟩]) := by
  have hfind : env.tools.find? (fun t => t.name == tc.name) = none := by
    rw [List.find?_eq_none]
    intro t ht
    simp [hno t ht]
  obtain ⟨args, hp⟩ := Option.isSome_iff_exists.mp hparse
  have hex : executeToolCall env tc
      = Except.ok ⟨tc.name, false, ToolData.obj [("error", toolNotFoundMsg tc.name)]⟩ := by
    simp [executeToolCall, hp, hfind]
  refine ⟨hex, ?_⟩
  intro msgs events
  unfold toolCallLoop
  rw [hex]
  rfl

/-- Witness for the amended C5 at the concrete unknown-tool request. -/
theorem c5_witness :
    executeToolCall envOneTool ⟨"call_9", "nonexistent_tool", "{}"⟩
        = Except.ok ⟨"nonexistent_tool", false,
            ToolData.obj [("error", toolNotFoundMsg "nonexistent_tool")]⟩ ∧
      ∀ msgs events, toolCallLoop envOneTool [⟨"call_9", "nonexistent_tool", "{}"⟩] msgs events
        = Except.ok
            (msgs ++ [⟨"tool",
              dumpsToolData (ToolData.obj [("error", toolNotFoundMsg "nonexistent_tool")]), [],
              some "call_9"⟩],
            events ++ [LoopEvent.toolCall ⟨"call_9", "nonexistent_tool", "{}"⟩,
              LoopEvent.toolResult
                ⟨"nonexistent_tool", false,
                  ToolData.obj [("error", toolNotFoundMsg "nonexistent_tool")]⟩]) :=
  c5_unknown_tool envOneTool ⟨"call_9", "nonexistent_tool", "{}"⟩ (by decide) (by decide)

/-- C7: `add_event` on an unknown run id leaves the registry unchanged,
and `get_events_since` returns the ordered suffix of the stored log from
the given index — the empty list when the run is unknown or the index is
at or beyond the tail. -/
theorem c7_registry_noop_and_suffix (st : RMState) (runId eventType : String)
    (d : EventData) (i : Nat) :
    (rmLookup st runId = none →
      addEvent st runId eventType d = st ∧ getEventsSince st runId i = []) ∧
    (∀ rd, rmLookup st runId = some rd →
      getEventsSince st runId i = rd.events.drop i ∧
      (rd.events.length ≤ i → getEventsSince st runId i = [])) := by
  constructor
  · intro h
    refine ⟨rmUpdate_of_lookup_none _ h, ?_⟩
    unfold getEventsSince
    rw [h]
  · intro rd h
    constructor
    · unfold getEventsSince
      rw [h]
    · intro hle
      unfold getEventsSince
      rw [h]
      exact List.drop_eq_nil_of_le hle

/-- Witness for C7 at the concrete one-run registry. -/
theorem c7_witness :
    (addEvent stW "ghost" "token" (EventData.text "x") = stW ∧
      getEventsSince stW "ghost" 0 = []) ∧
      getEventsSince stW "run1" 1 = rdW.events.drop 1 ∧
      getEventsSince stW "run1" 5 = [] := by
  refine ⟨(c7_registry_noop_and_suffix stW "ghost" "token" (EventData.text "x") 0).1
    (by decide), ?_, ?_⟩
  · exact ((c7_registry_noop_and_suffix stW "run1" "token" (EventData.text "x") 1).2
      rdW (by decide)).1
  · exact ((c7_registry_noop_and_suffix stW "run1" "token" (EventData.text "x") 5).2
      rdW (by decide)).2 (by decide)

/-- C8 as stated is false on the code: with the run absent from the
registry and the durable row still non-terminal (`running`), one polling
iteration pushes no frame and does not close the stream — there is no
"run not found" response anywhere in `event_stream`; the loop just keeps
polling. -/
theorem c8_original_counterexample :
    (pollStep ⟨false, [], "run1", 0, "running", none, false⟩).closed = false ∧
      (pollStep ⟨false, [], "run1", 0, "running", none, false⟩).frames = [] := by
  refine ⟨by decide, by decide⟩

/-- C8 amended: when the streamed run is absent from the live registry,
the publisher falls back to the durable row: a terminal durable status
pushes exactly one terminal frame and closes; a non-terminal durable
status pushes nothing (or only a due heartbeat) and keeps the stream
open, polling again — no "run not found" response exists. -/
theorem c8_stream_fallback (ps : PollState)
    (hdc : ps.disconnected = false) (habs : rmLookup ps.rm ps.runId = none) :
    (isTerminal ps.dbStatus = true →
      pollStep ps = ⟨[Frame.doneFrame ps.dbStatus (some (dbDoneMessage ps.dbResult))],
        ps.lastEventIndex, true⟩) ∧
    (isTerminal ps.dbStatus = false →
      (pollStep ps).closed = false ∧
      (pollStep ps).frames = (if ps.heartbeatDue then [Frame.heartbeat] else [])) := by
  unfold pollStep
  rw [hdc, habs]
  simp only [Bool.false_eq_true, if_false]
  constructor
  · intro ht
    rw [ht]
    simp
  · intro ht
    rw [ht]
    simp only [Bool.false_eq_true, if_false]
    by_cases hb : ps.heartbeatDue
    · simp [hb]
    · simp [hb]

/-- Witness for the amended C8: the two durable-fallback outcomes at
concrete states. -/
theorem c8_witness :
    pollStep ⟨false, [], "run1", 3, "completed", some "answer", false⟩
        = ⟨[Frame.doneFrame "completed" (some "answer")], 3, true⟩ ∧
      (pollStep ⟨false, [], "run2", 0, "queued", none, true⟩).closed = false ∧
      (pollStep ⟨false, [], "run2", 0, "queued", none, true⟩).frames = [Frame.heartbeat] := by
  refine ⟨?_, ?_, ?_⟩
  · have h := (c8_stream_fallback ⟨false, [], "run1", 3, "completed", some "answer", false⟩
      rfl rfl).1 (by decide)
    rw [h]
    rfl
  · exact ((c8_stream_fallback ⟨false, [], "run2", 0, "queued", none, true⟩
      rfl rfl).2 (by decide)).1
  · have h := ((c8_stream_fallback ⟨false, [], "run2", 0, "queued", none, true⟩
      rfl rfl).2 (by decide)).2
    rw [h]
    rfl

theorem addMessage_max (m : MemoryState) (role content : String) :
    (addMessage m role content).max_messages = m.max_messages := by
  simp only [addMessage]
  split <;> rfl

theorem addMessage_messages (m : MemoryState) (role content : String) :
    (addMessage m role content).messages =
      (if (m.messages ++ [(⟨role, content⟩ : MemMessage)]).length > m.max_messages
        then pySliceLast m.max_messages (m.messages ++ [(⟨role, content⟩ : MemMessage)])
        else m.messages ++ [(⟨role, content⟩ : MemMessage)]) := by
  simp only [addMessage]
  split <;> rfl

theorem addMessages_max (items : List (String × String)) :
    ∀ m : MemoryState, (addMessages m items).max_messages = m.max_messages := by
  induction items with
  | nil => intro m; rfl
  | cons p rest ih =>
    intro m
    unfold addMessages at ih ⊢
    simp only [List.foldl_cons]
    rw [ih, addMessage_max]

theorem addMessages_append_singleton (m : MemoryState) (items : List (String × String))
    (p : String × String) :
    addMessages m (items ++ [p]) = addMessage (addMessages m items) p.1 p.2 := by
  unfold addMessages
  rw [List.foldl_append]
  rfl

/-- C10: starting from a `Memory` instance with `max_messages ≥ 1`, any
sequence of `add_message` calls leaves at most `max_messages` stored
messages, and what is stored is exactly the suffix of most recently
added messages in insertion order (the oldest trimmed first). -/
theorem c10_memory_bounded_suffix (maxM : Nat) (hmax : 1 ≤ maxM)
    (items : List (String × String)) :
    (addMessages (mkMemory maxM) items).messages
        = (items.map (fun p => (⟨p.1, p.2⟩ : MemMessage))).drop (items.length - maxM) ∧
      (addMessages (mkMemory maxM) items).messages.length ≤ maxM := by
  induction items using List.reverseRecOn with
  | nil =>
    constructor
    · simp [addMessages, mkMemory]
    · simp [addMessages, mkMemory]
  | append_singleton items p ih =>
    obtain ⟨hmsgs, hlen⟩ := ih
    have hmaxf : (addMessages (mkMemory maxM) items).max_messages = maxM :=
      addMessages_max items (mkMemory maxM)
    have hLlen : (items.map (fun q => (⟨q.1, q.2⟩ : MemMessage))).length = items.length :=
      List.length_map _ _
    rw [addMessages_append_singleton, addMessage_messages, hmaxf, hmsgs]
    by_cases hbig : maxM ≤ items.length
    · have hsl : ((items.map (fun q => (⟨q.1, q.2⟩ : MemMessage))).drop
          (items.length - maxM)).length = maxM := by
        rw [List.length_drop, hLlen]
        omega
      have hgt : ((items.map (fun q => (⟨q.1, q.2⟩ : MemMessage))).drop
          (items.length - maxM) ++ [(⟨p.1, p.2⟩ : MemMessage)]).length > maxM := by
        rw [List.length_append, hsl]
        simp
      rw [if_pos hgt]
      unfold pySliceLast
      rw [if_neg (by omega)]
      have hlen2 : ((items.map (fun q => (⟨q.1, q.2⟩ : MemMessage))).drop
          (items.length - maxM) ++ [(⟨p.1, p.2⟩ : MemMessage)]).length - maxM = 1 := by
        rw [List.length_append, hsl]
        simp only [List.length_cons, List.length_nil]
        omega
      rw [hlen2]
      rw [List.drop_append_of_le_length (by rw [hsl]; omega)]
      rw [List.drop_drop]
      have h2 : (items ++ [p]).length - maxM = items.length - maxM + 1 := by
        rw [List.length_append]
        simp only [List.length_cons, List.length_nil]
        omega
      constructor
      · rw [List.map_append, h2]
        rw [List.drop_append_of_le_length (by rw [hLlen]; omega)]
        rfl
      · rw [List.length_append, List.length_drop, hLlen]
        simp only [List.length_cons, List.length_nil]
        omega
    · have hle : ¬ ((items.map (fun q => (⟨q.1, q.2⟩ : MemMessage))).drop
          (items.length - maxM) ++ [(⟨p.1, p.2⟩ : MemMessage)]).length > maxM := by
        rw [List.length_append, List.length_drop, hLlen]
        simp only [List.length_cons, List.length_nil]
        omega
      rw [if_neg hle]
      have h0 : items.length - maxM = 0 := by omega
      have h0' : (items ++ [p]).length - maxM = 0 := by
        rw [List.length_append]
        simp only [List.length_cons, List.length_nil]
        omega
      constructor
      · rw [h0, h0']
        simp [List.map_append]
      · rw [List.length_append, List.length_drop, hLlen]
        simp only [List.length_cons, List.length_nil]
        omega

/-- Witness for C10 at a concrete bound and message sequence. -/
theorem c10_witness :
    (addMessages (mkMemory 2) [("user", "a"), ("user", "b"), ("user", "c")]).messages
        = ([("user", "a"), ("user", "b"), ("user", "c")].map
            (fun p => (⟨p.1, p.2⟩ : MemMessage))).drop 1 ∧
      (addMessages (mkMemory 2) [("user", "a"), ("user", "b"), ("user", "c")]).messages.length
        ≤ 2 :=
  c10_memory_bounded_suffix 2 (by decide) [("user", "a"), ("user", "b"), ("user", "c")]

/-- C1: the engine-level half of the claim is real — with the K = 2
backend stub that always requests one well-formed tool call, the agent
loop terminates after both rounds with the fixed deterministic fallback
completion message, and the working driver `start_run` marks that run
`completed` after exactly 2 backend calls.  But the route handler the
claim cites for run marking takes a different path: `execute_agent_run`
calls the nonexistent `AgentLoop.run`, so the very same run triggered
through it is marked `failed` with one `AttributeError` error event and
zero backend calls — the completed-marking code of that handler is
unreachable. -/
theorem c1_code_bug_trace :
    (∃ events, runAgent envTools [] "go"
        = (Except.ok (fallbackMessage, events), maxIterations)) ∧
      (startRun envTools [] "go").status = "completed" ∧
      (startRun envTools [] "go").backendCalls = maxIterations ∧
      (executeAgentRun "run1" "thread1" "go" [] dbQueued).db.status = "failed" ∧
      rmStatus (executeAgentRun "run1" "thread1" "go" [] dbQueued).rm "run1"
        = some "failed" ∧
      rmEvents (executeAgentRun "run1" "thread1" "go" [] dbQueued).rm "run1"
        = [⟨"error", EventData.errorInfo runErrorMsg⟩] ∧
      (executeAgentRun "run1" "thread1" "go" [] dbQueued).backendCalls = 0 := by
  obtain ⟨events, hiter⟩ := agentLoopIter_fallback envTools
    (fun _msgs => ⟨⟨"thinking", [webSearchCall]⟩, rfl, by decide, by decide⟩)
    maxIterations (initialMessages [] "go") [] 0
  have hrun : runAgent envTools [] "go"
      = (Except.ok (fallbackMessage, events), maxIterations) := by
    unfold runAgent executeAgentLoop
    rw [hiter, Nat.zero_add]
  refine ⟨⟨events, hrun⟩, ?_, ?_, by decide, by decide, by decide, by decide⟩
  · unfold startRun
    rw [hrun]
  · unfold startRun
    rw [hrun]

/-- C3 as stated is false on the code: for a request whose arguments
string is not valid JSON, `_execute_tool_call` raises the parse error
past the invoke boundary instead of returning a failed `ToolResult`
(`json.loads` runs before its `try` block), and on the path that reaches
tool execution (`start_run`) the loop does not continue: the run ends
with status `error` and a single error yield. -/
theorem c3_original_counterexample :
    executeToolCall envNoJson badCall = Except.error jsonDecodeError ∧
      (startRun envNoJson [] "hi").status = "error" ∧
      (startRun envNoJson [] "hi").yields = [RunYield.errorYield jsonDecodeError] := by
  refine ⟨by decide, by decide, by decide⟩

/-- C3 amended: a tool request whose arguments string fails to parse as
JSON makes `_execute_tool_call` raise the parse error past the invoke
boundary (no `ToolResult` is returned), the sequential tool loop aborts
on it, and the one path that reaches tool execution — `start_run` —
catches the exception and ends the run with status `error` and exactly
one error yield.  (The route handler `execute_agent_run` never reaches
tool execution at all: it fails earlier on the missing `AgentLoop.run`.)
Only exceptions raised by the tool body itself become failed
`ToolResult`s. -/
theorem c3_malformed_args_fatal (env : LoopEnv) (tc : ToolCallData)
    (history : List ChatMsg) (userContent : String)
    (resp : ModelResponse) (rest : List ToolCallData)
    (hparse : env.parseArgs tc.arguments = none)
    (hb : env.backend (initialMessages history userContent) = Except.ok resp)
    (hcalls : resp.tool_calls = tc :: rest) :
    executeToolCall env tc = Except.error jsonDecodeError ∧
      (∀ msgs events, toolCallLoop env (tc :: rest) msgs events
        = Except.error jsonDecodeError) ∧
      (startRun env history userContent).status = "error" ∧
      (startRun env history userContent).yields
        = [RunYield.errorYield jsonDecodeError] := by
  have hex : executeToolCall env tc = Except.error jsonDecodeError := by
    simp [executeToolCall, hparse]
  have htl : ∀ msgs events, toolCallLoop env (tc :: rest) msgs events
      = Except.error jsonDecodeError := by
    intro msgs events
    unfold toolCallLoop
    rw [hex]
  have hrun : runAgent env history userContent = (Except.error jsonDecodeError, 1) := by
    unfold runAgent executeAgentLoop maxIterations
    unfold agentLoopIter
    rw [hb]
    simp only [hcalls, List.isEmpty_cons, Bool.false_eq_true, if_false]
    rw [htl]
  refine ⟨hex, htl, ?_, ?_⟩
  · unfold startRun
    rw [hrun]
  · unfold startRun
    rw [hrun]

/-- Witness for the amended C3 at the concrete malformed request. -/
theorem c3_witness :
    executeToolCall envNoJson badCall = Except.error jsonDecodeError ∧
      (∀ msgs events, toolCallLoop envNoJson [badCall] msgs events
        = Except.error jsonDecodeError) ∧
      (startRun envNoJson [] "go").status = "error" ∧
      (startRun envNoJson [] "go").yields = [RunYield.errorYield jsonDecodeError] :=
  c3_malformed_args_fatal envNoJson badCall [] "go" ⟨"thinking", [badCall]⟩ []
    rfl rfl rfl

/-- C6 as stated is false on the code in one detail: on the one path
that actually calls the reasoning backend (`start_run`), a backend
failure sets the run status to `error`, not `failed`. -/
theorem c6_original_counterexample :
    (startRun envFailBackend [] "hi").status = "error" ∧
      (startRun envFailBackend [] "hi").status ≠ "failed" := by
  refine ⟨by decide, by decide⟩

/-- C6 amended: a reasoning-backend call failure is run-fatal and not
retried: `start_run` catches the exception, writes status `error` (not
`failed`) with the message as `error_message`, yields exactly one error
dict, and invoked the backend exactly once.  (The route handler
`execute_agent_run`, whose `except` branch would write `failed`, never
reaches a backend call: it fails earlier on the missing `AgentLoop.run`
with zero backend invocations.) -/
theorem c6_backend_failure_fatal (env : LoopEnv) (history : List ChatMsg)
    (userContent e : String)
    (h : env.backend (initialMessages history userContent) = Except.error e) :
    (startRun env history userContent).status = "error" ∧
      (startRun env history userContent).error_message = some e ∧
      (startRun env history userContent).yields = [RunYield.errorYield e] ∧
      (startRun env history userContent).backendCalls = 1 := by
  have hrun := runAgent_backend_error env history userContent e h
  refine ⟨?_, ?_, ?_, ?_⟩ <;>
    · unfold startRun
      rw [hrun]

/-- Witness for the amended C6 at the concrete failing backend. -/
theorem c6_witness :
    (startRun envFailBackend [] "hi").status = "error" ∧
      (startRun envFailBackend [] "hi").error_message
        = some "httpx.ConnectError: connection refused" ∧
      (startRun envFailBackend [] "hi").yields
        = [RunYield.errorYield "httpx.ConnectError: connection refused"] ∧
      (startRun envFailBackend [] "hi").backendCalls = 1 :=
  c6_backend_failure_fatal envFailBackend [] "hi"
    "httpx.ConnectError: connection refused" rfl

/-- C9: every event `execute_agent_run` leaves in a run's registry log
has a kind inside the spec vocabulary {token, tool_call, tool_result,
heartbeat, error, done} — as staged, the handler raises on the missing
`AgentLoop.run` before any response mirroring, so the only kind it ever
hands to `add_event` is `error`, which the vocabulary contains. -/
theorem c9_event_kinds (runId threadId userMessage : String)
    (rm0 : RMState) (db0 : DbRun) :
    ∀ ev ∈ rmEvents (executeAgentRun runId threadId userMessage rm0 db0).rm runId,
      ev.event ∈ specEventKinds := by
  intro ev hev
  have hcreated : rmStatus (createRunData rm0 runId threadId (sanitizeContent userMessage))
      runId = some "running" := rmStatus_createRunData_self rm0 runId threadId _
  have hsome : (rmLookup (createRunData rm0 runId threadId (sanitizeContent userMessage))
      runId).isSome := isSome_of_rmStatus_eq hcreated
  have hlog : rmEvents (executeAgentRun runId threadId userMessage rm0 db0).rm runId
      = [⟨"error", EventData.errorInfo runErrorMsg⟩] := by
    simp only [executeAgentRun]
    rw [rmEvents_updateStatus]
    rw [rmEvents_addEvent_self _ _ _ _ hsome]
    rw [rmEvents_createRunData_self]
    rfl
  rw [hlog] at hev
  simp only [List.mem_singleton] at hev
  rw [hev]
  decide

/-- Witness for C9 at a concrete run. -/
theorem c9_witness :
    (⟨"error", EventData.errorInfo runErrorMsg⟩ : RMEvent).event ∈ specEventKinds :=
  c9_event_kinds "run1" "thread1" "hi" [] dbQueued
    ⟨"error", EventData.errorInfo runErrorMsg⟩ (by decide)
